import Mathlib

/-!
Shallow embedding of the swaptrade-contract accounting core: the
Portfolio aggregate (balances, PnL, badges, leaderboard, pool reserves,
LP positions) from counter/portfolio.rs, and the contract entry points
(swap, add_liquidity, remove_liquidity, batch execution) from
counter/src/lib.rs.  Machine integers (i128, u128, u32) are modelled as
Int/Nat with explicit saturation or wrap exactly where the source uses
saturating or wrapping operations; Rust `/` on i128 is modelled by
`Int.div` (truncation toward zero).  Soroban maps are modelled as
association lists; panicking paths (`assert!`, `panic!`) are modelled
with `Except String`, since a Soroban panic aborts the invocation and
discards every in-flight mutation.
-/

set_option maxRecDepth 100000

namespace SwapTrade

instance exceptDecEq {ε α : Type} [DecidableEq ε] [DecidableEq α] :
    DecidableEq (Except ε α) := fun x y =>
  match x, y with
  | .ok a, .ok b =>
      if h : a = b then .isTrue (by rw [h])
      else .isFalse (by intro he; cases he; exact h rfl)
  | .error a, .error b =>
      if h : a = b then .isTrue (by rw [h])
      else .isFalse (by intro he; cases he; exact h rfl)
  | .ok _, .error _ => .isFalse (by intro he; cases he)
  | .error _, .ok _ => .isFalse (by intro he; cases he)

abbrev Account := Nat

inductive Asset where
  | XLM : Asset
  | Custom : String → Asset
deriving DecidableEq

inductive Badge where
  | FirstTrade : Badge
  | Trader : Badge
  | WealthBuilder : Badge
  | LiquidityProvider : Badge
  | Diversifier : Badge
  | Consistency : Badge
deriving DecidableEq

def I128_MIN : Int := -(2 ^ 127)

def I128_MAX : Int := 2 ^ 127 - 1

def U128_MAX : Nat := 2 ^ 128 - 1

def U32_MAX : Nat := 2 ^ 32 - 1

/-- Rust `i128::saturating_add`. -/
def i128SatAdd (a b : Int) : Int := min (max (a + b) I128_MIN) I128_MAX

/-- Rust `i128::saturating_sub`. -/
def i128SatSub (a b : Int) : Int := min (max (a - b) I128_MIN) I128_MAX

/-- Rust `i128::saturating_mul` (for the operand signs used here). -/
def i128SatMul (a b : Int) : Int := min (max (a * b) I128_MIN) I128_MAX

/-- Rust `u128::saturating_mul`. -/
def u128SatMul (a b : Nat) : Nat := min (a * b) U128_MAX

/-- Rust `u32::saturating_add`. -/
def u32SatAdd (a b : Nat) : Nat := min (a + b) U32_MAX

/-- Interpretation of a Rust `u128 as i128` cast (two's-complement wrap). -/
def i128ofU128 (x : Nat) : Int := if x < 2 ^ 127 then (x : Int) else (x : Int) - 2 ^ 128

/-- Lookup in an association-list model of a Soroban `Map`. -/
def mget {K V : Type} [DecidableEq K] : List (K × V) → K → Option V
  | [], _ => none
  | (k', v) :: rest, k => if k' = k then some v else mget rest k

/-- Update in an association-list model of a Soroban `Map`. -/
def mset {K V : Type} [DecidableEq K] : List (K × V) → K → V → List (K × V)
  | [], k, v => [(k, v)]
  | (k', v') :: rest, k, v =>
      if k' = k then (k, v) :: rest else (k', v') :: mset rest k v

/-- Aggregate metrics (struct Metrics in portfolio.rs); u32 counters. -/
structure Metrics where
  trades_executed : Nat
  failed_orders : Nat
  balances_updated : Nat
deriving DecidableEq

def Metrics.default : Metrics := ⟨0, 0, 0⟩

/-- LP position record (struct LPPosition in portfolio.rs). -/
structure LPPosition where
  lp_address : Account
  xlm_deposited : Int
  usdc_deposited : Int
  lp_tokens_minted : Int
deriving DecidableEq

/-- The Portfolio aggregate (struct Portfolio in portfolio.rs). -/
structure Portfolio where
  balances : List ((Account × Asset) × Int)
  trades : List (Account × Nat)
  pnl : List (Account × Int)
  badges : List ((Account × Badge) × Bool)
  metrics : Metrics
  total_users : Nat
  total_trading_volume : Int
  active_users : List Account
  top_traders : List (Account × Int)
  xlm_in_pool : Int
  usdc_in_pool : Int
  total_fees_collected : Int
  initial_balances : List (Account × Int)
  token_pairs_traded : List (Account × List String)
  ledger_heights_traded : List (Account × List Nat)
  lp_deposits_count : List (Account × Nat)
  lp_positions : List (Account × LPPosition)
  total_lp_tokens : Int
  lp_fees_accumulated : Int
deriving DecidableEq

/-- Portfolio::new - the default-initialized aggregate. -/
def Portfolio.new : Portfolio :=
  { balances := [], trades := [], pnl := [], badges := []
    metrics := Metrics.default
    total_users := 0, total_trading_volume := 0
    active_users := [], top_traders := []
    xlm_in_pool := 0, usdc_in_pool := 0, total_fees_collected := 0
    initial_balances := [], token_pairs_traded := []
    ledger_heights_traded := [], lp_deposits_count := []
    lp_positions := [], total_lp_tokens := 0, lp_fees_accumulated := 0 }

/-- Portfolio::balance_of - returns 0 for unknown keys, never fails. -/
def Portfolio.balance_of (p : Portfolio) (token : Asset) (user : Account) : Int :=
  (mget p.balances (user, token)).getD 0

/-- Portfolio::has_badge. -/
def Portfolio.has_badge (p : Portfolio) (user : Account) (badge : Badge) : Bool :=
  (mget p.badges (user, badge)).getD false

/-- Portfolio::award_badge - sets the badge only when not already held. -/
def Portfolio.award_badge (p : Portfolio) (user : Account) (badge : Badge) : Portfolio :=
  if p.has_badge user badge then p
  else { p with badges := mset p.badges (user, badge) true }

/-- Portfolio::credit - amount 0 is a no-op; negative amount panics;
otherwise adds to the balance and bumps the balances_updated metric.
The PnL accumulator is NOT touched (compare Portfolio::mint). -/
def Portfolio.credit (p : Portfolio) (token : Asset) (user : Account) (amount : Int) :
    Except String Portfolio :=
  if amount = 0 then .ok p
  else if amount > 0 then
    .ok { p with
          balances := mset p.balances (user, token)
            ((mget p.balances (user, token)).getD 0 + amount)
          metrics := { p.metrics with
            balances_updated := u32SatAdd p.metrics.balances_updated 1 } }
  else .error "Amount must be positive"

/-- Portfolio::debit - requires amount > 0 and balance >= amount;
decrements the balance, saturating-subtracts amount from the PnL
accumulator, and bumps the balances_updated metric. -/
def Portfolio.debit (p : Portfolio) (token : Asset) (user : Account) (amount : Int) :
    Except String Portfolio :=
  if amount > 0 then
    let current := (mget p.balances (user, token)).getD 0
    if current ≥ amount then
      .ok { p with
            balances := mset p.balances (user, token) (current - amount)
            pnl := mset p.pnl user (i128SatSub ((mget p.pnl user).getD 0) amount)
            metrics := { p.metrics with
              balances_updated := u32SatAdd p.metrics.balances_updated 1 } }
    else .error "Insufficient funds"
  else .error "Amount must be positive"

/-- One bounded bubble pass over the leaderboard: at most `m` adjacent
comparisons starting at the head, swapping when the left PnL is smaller
(the inner `for j in 0..(len - 1 - i)` loop of Portfolio::sort_top_traders). -/
def passB : Nat → List (Account × Int) → List (Account × Int)
  | _, [] => []
  | 0, l => l
  | _ + 1, [x] => [x]
  | m + 1, x :: y :: rest =>
      if x.2 < y.2 then y :: passB m (x :: rest) else x :: passB m (y :: rest)

/-- The outer `for i in 0..len` loop of Portfolio::sort_top_traders:
pass bounds len-1, len-2, ..., 0 in that order. -/
def outerGo : Nat → List (Account × Int) → List (Account × Int)
  | 0, l => l
  | k + 1, l => outerGo k (passB k l)

/-- Portfolio::sort_top_traders - bubble sort by PnL descending. -/
def sortTopTraders (l : List (Account × Int)) : List (Account × Int) :=
  outerGo l.length l

/-- Portfolio::update_top_traders - update or insert the user's slot
(replacing slot 99 when full and beaten), then re-sort. -/
def Portfolio.update_top_traders (p : Portfolio) (user : Account) : Portfolio :=
  let user_pnl := (mget p.pnl user).getD 0
  let tt := p.top_traders
  let tt' :=
    match tt.findIdx? (fun q => q.1 = user) with
    | some idx => tt.set idx (user, user_pnl)
    | none =>
        if tt.length < 100 then tt ++ [(user, user_pnl)]
        else
          match tt.get? 99 with
          | some q => if user_pnl > q.2 then tt.set 99 (user, user_pnl) else tt
          | none => tt
  { p with top_traders := sortTopTraders tt' }

/-- Portfolio::mint - requires amount >= 0; adds to the balance, adds
amount to the PnL accumulator, updates the leaderboard, bumps metrics. -/
def Portfolio.mint (p : Portfolio) (token : Asset) (dst : Account) (amount : Int) :
    Except String Portfolio :=
  if amount ≥ 0 then
    let p1 := { p with
      balances := mset p.balances (dst, token)
        ((mget p.balances (dst, token)).getD 0 + amount)
      pnl := mset p.pnl dst ((mget p.pnl dst).getD 0 + amount) }
    let p2 := p1.update_top_traders dst
    .ok { p2 with metrics := { p2.metrics with
            balances_updated := u32SatAdd p2.metrics.balances_updated 1 } }
  else .error "Amount must be non-negative"

/-- Portfolio::record_trade - increments the trade count, bumps the
trades_executed metric, and awards FirstTrade on the first trade. -/
def Portfolio.record_trade (p : Portfolio) (user : Account) : Portfolio :=
  let count := (mget p.trades user).getD 0
  let p1 := { p with
    trades := mset p.trades user (count + 1)
    metrics := { p.metrics with
      trades_executed := u32SatAdd p.metrics.trades_executed 1 } }
  if count = 0 then p1.award_badge user .FirstTrade else p1

/-- Portfolio::get_total_user_balance - returns the PnL as a proxy. -/
def Portfolio.get_total_user_balance (p : Portfolio) (user : Account) : Int :=
  (mget p.pnl user).getD 0

/-- A single threshold check of Portfolio::check_and_award_badges: award
the badge when the condition holds, otherwise leave the state alone. -/
def Portfolio.condAward (p : Portfolio) (user : Account) (c : Prop) [Decidable c]
    (badge : Badge) : Portfolio :=
  if c then p.award_badge user badge else p

/-- Portfolio::check_and_award_badges - threshold checks for Trader,
WealthBuilder, LiquidityProvider, Diversifier and Consistency. -/
def Portfolio.check_and_award_badges (p : Portfolio) (user : Account) : Portfolio :=
  let trades := (mget p.trades user).getD 0
  let p := p.condAward user (trades ≥ 10) .Trader
  let current_balance := p.get_total_user_balance user
  let initial_balance := (mget p.initial_balances user).getD 0
  let p := p.condAward user
    (initial_balance > 0 ∧ current_balance ≥ initial_balance * 10) .WealthBuilder
  let lp_deposits := (mget p.lp_deposits_count user).getD 0
  let p := p.condAward user (lp_deposits ≥ 1) .LiquidityProvider
  let pairs := (mget p.token_pairs_traded user).getD []
  let p := p.condAward user (pairs.length ≥ 5) .Diversifier
  let heights := (mget p.ledger_heights_traded user).getD []
  p.condAward user (heights.length ≥ 7) .Consistency

/-- Portfolio::record_lp_deposit - saturating increment of the count. -/
def Portfolio.record_lp_deposit (p : Portfolio) (user : Account) : Portfolio :=
  { p with lp_deposits_count :=
      (mset p.lp_deposits_count user
        (u32SatAdd ((mget p.lp_deposits_count user).getD 0) 1)) }

/-- Portfolio::collect_fee - saturating add into total_fees_collected. -/
def Portfolio.collect_fee (p : Portfolio) (fee_amount : Int) : Portfolio :=
  { p with total_fees_collected := i128SatAdd p.total_fees_collected fee_amount }

/-- Portfolio::add_pool_liquidity - saturating adds into the reserves. -/
def Portfolio.add_pool_liquidity (p : Portfolio) (xlm_amount usdc_amount : Int) : Portfolio :=
  { p with
    xlm_in_pool := i128SatAdd p.xlm_in_pool xlm_amount
    usdc_in_pool := i128SatAdd p.usdc_in_pool usdc_amount }

/-- Portfolio::set_liquidity - only XLM and the USDCSIM symbol hit a pool. -/
def Portfolio.set_liquidity (p : Portfolio) (asset : Asset) (amount : Int) : Portfolio :=
  match asset with
  | .XLM => { p with xlm_in_pool := amount }
  | .Custom sym => if sym = "USDCSIM" then { p with usdc_in_pool := amount } else p

/-- Portfolio::get_liquidity. -/
def Portfolio.get_liquidity (p : Portfolio) (asset : Asset) : Int :=
  match asset with
  | .XLM => p.xlm_in_pool
  | .Custom sym => if sym = "USDCSIM" then p.usdc_in_pool else 0

/-- Portfolio::set_lp_position. -/
def Portfolio.set_lp_position (p : Portfolio) (user : Account) (pos : LPPosition) : Portfolio :=
  { p with lp_positions := mset p.lp_positions user pos }

/-- Portfolio::add_total_lp_tokens - saturating add. -/
def Portfolio.add_total_lp_tokens (p : Portfolio) (amount : Int) : Portfolio :=
  { p with total_lp_tokens := i128SatAdd p.total_lp_tokens amount }

/-- Portfolio::subtract_total_lp_tokens - saturating sub, floored at 0. -/
def Portfolio.subtract_total_lp_tokens (p : Portfolio) (amount : Int) : Portfolio :=
  let t := i128SatSub p.total_lp_tokens amount
  { p with total_lp_tokens := if t < 0 then 0 else t }

/-- Portfolio::update_stats_on_trade - lazily counts new users, tracks
active users, and saturating-adds the swap amount into the volume. -/
def Portfolio.update_stats_on_trade (p : Portfolio) (user : Account) (swap_amount : Int) :
    Portfolio :=
  let trade_count := (mget p.trades user).getD 0
  let p :=
    if trade_count = 0 then
      let p := { p with total_users := u32SatAdd p.total_users 1 }
      if p.active_users.contains user then p
      else { p with active_users := p.active_users ++ [user] }
    else p
  { p with total_trading_volume := i128SatAdd p.total_trading_volume swap_amount }

/-- Portfolio::transfer_asset - debit of the source asset, credit of the
target asset, then update_stats_on_trade; a failed debit aborts before
the credit. -/
def Portfolio.transfer_asset (p : Portfolio) (from_token to_token : Asset)
    (user : Account) (amount : Int) : Except String Portfolio := do
  let p ← p.debit from_token user amount
  let p ← p.credit to_token user amount
  .ok (p.update_stats_on_trade user amount)

/-- Portfolio::get_top_traders - clamps the limit at 100, then copies the
first min(len, limit) stored entries. -/
def Portfolio.get_top_traders (p : Portfolio) (limit : Nat) : List (Account × Int) :=
  let max_limit : Nat := 100
  let actual_limit := if limit > max_limit then max_limit else limit
  let len := p.top_traders.length
  let cap := if len < actual_limit then len else actual_limit
  (List.range cap).filterMap (fun i => p.top_traders.get? i)

/-- Portfolio::invariant_fee_bounds - the fee-bounds predicate. -/
def Portfolio.invariant_fee_bounds (amount fee : Int) : Bool :=
  if fee < 0 then false
  else if amount > 0 then
    if fee > Int.tdiv (amount * 100) 10000 then false else true
  else if amount = 0 ∧ fee ≠ 0 then false
  else true

/-- Symbol-to-asset conversion used throughout lib.rs: the XLM symbol is
the native asset, anything else is a custom asset. -/
def assetOfSymbol (sym : String) : Asset :=
  if sym = "XLM" then .XLM else .Custom sym

/-- Reserve symbols recognized by the single pool. -/
def recognizedSymbol (sym : String) : Bool :=
  sym = "XLM" ∨ sym = "USDCSIM"

/-- Modelled from the spec: trading::perform_swap, whose real body is not
under src/ (lib.rs imports it from the trading module; the file in src/
holds only an unrelated mock).  Per spec section 4.2 it validates the
pair and amount, debits the input from the user's ledger balance,
computes the output by constant-product pricing against the current
reserves (fee-exclusive), updates the reserves, and credits the output. -/
def perform_swap (p : Portfolio) (fromTok toTok : String) (amount : Int)
    (user : Account) : Except String (Portfolio × Int) :=
  if amount ≤ 0 then .error "ZeroAmountSwap"
  else if fromTok = toTok then .error "InvalidSwapPair"
  else if ¬ (recognizedSymbol fromTok ∧ recognizedSymbol toTok) then
    .error "InvalidSwapPair"
  else do
    let p ← p.debit (assetOfSymbol fromTok) user amount
    let reserve_in := p.get_liquidity (assetOfSymbol fromTok)
    let reserve_out := p.get_liquidity (assetOfSymbol toTok)
    let out_amount := Int.tdiv (reserve_out * amount) (reserve_in + amount)
    let p := p.set_liquidity (assetOfSymbol fromTok) (reserve_in + amount)
    let p := p.set_liquidity (assetOfSymbol toTok) (reserve_out - out_amount)
    let p ← p.credit (assetOfSymbol toTok) user out_amount
    .ok (p, out_amount)

/-- CounterContract::swap from lib.rs, embedded faithfully - including
the consecutive perform_swap calls: the first is invoked with the
post-fee swap_amount and its result is immediately shadowed by a second
call with the full pre-fee amount, whose output is what is returned.
The tier fee rate comes from the tiers module, which is not under src/;
per the spec it is a pure function of the user's trade count, so it is
passed here as the parameter feeBps.  rateLimitOk is the (read-only)
outcome of the spec-modelled RateLimiter::check_swap_limit. -/
def ccSwap (feeBps : Nat → Nat) (rateLimitOk : Bool) (p : Portfolio)
    (fromTok toTok : String) (amount : Int) (user : Account) :
    Except String (Portfolio × Int) :=
  if rateLimitOk = false then .error "RATELIMIT"
  else do
    let bps : Int := (feeBps ((mget p.trades user).getD 0) : Int)
    let fee_amount := Int.tdiv (amount * bps) 10000
    let swap_amount := amount - fee_amount
    let p ←
      if fee_amount > 0 then do
        let p ← p.debit (assetOfSymbol fromTok) user fee_amount
        .ok (p.collect_fee fee_amount)
      else .ok p
    let (p, _shadowed) ← perform_swap p fromTok toTok swap_amount user
    let (p, out_amount) ← perform_swap p fromTok toTok amount user
    let p := p.record_trade user
    .ok (p, out_amount)

/-- The bounded Babylonian iteration of CounterContract::add_liquidity,
with fuel playing the role of the `iterations < 100` counter; the u128
addition guess + quotient wraps as in release-mode Rust. -/
def babylonianGo (product : Nat) : Nat → Nat → Nat → Nat
  | guess, _, 0 => guess
  | guess, prev, fuel + 1 =>
      if guess = prev then guess
      else
        let quotient := product / guess
        let g := ((guess + quotient) % 2 ^ 128) / 2
        if g = 0 then 1 else babylonianGo product g guess fuel

/-- Integer square root of CounterContract::add_liquidity: Babylonian
iteration started at the product, capped at 100 iterations. -/
def babylonian (product : Nat) : Nat := babylonianGo product product 0 100

/-- CounterContract::add_liquidity from lib.rs.  First deposit mints
sqrt(xlm * usdc) shares, later deposits mint the proportional-share
minimum; the deposit debits both assets, credits the pool reserves,
updates the LP position and total supply, records the deposit for badge
tracking and re-evaluates badges.  lpRateOk is the (read-only) outcome
of the spec-modelled RateLimiter::check_lp_limit; casts between u128
and i128 are modelled explicitly. -/
def ccAddLiquidity (lpRateOk : Bool) (p : Portfolio)
    (xlm_amount usdc_amount : Int) (user : Account) :
    Except String (Portfolio × Int) :=
  if ¬ xlm_amount > 0 then .error "XLM amount must be positive"
  else if ¬ usdc_amount > 0 then .error "USDC amount must be positive"
  else if lpRateOk = false then .error "RATELIMIT"
  else
    let current_xlm := p.get_liquidity .XLM
    let current_usdc := p.get_liquidity (.Custom "USDCSIM")
    let total_lp_tokens := p.total_lp_tokens
    let user_xlm_balance := p.balance_of .XLM user
    let user_usdc_balance := p.balance_of (.Custom "USDCSIM") user
    if ¬ user_xlm_balance ≥ xlm_amount then .error "Insufficient XLM balance"
    else if ¬ user_usdc_balance ≥ usdc_amount then .error "Insufficient USDC balance"
    else do
      let lp_tokens_minted : Int ←
        if total_lp_tokens = 0 then
          let product := u128SatMul xlm_amount.toNat usdc_amount.toNat
          if product = 0 then .error "Product must be positive"
          else .ok (i128ofU128 (babylonian product))
        else
          let xlm_share :=
            if current_xlm > 0 then
              u128SatMul xlm_amount.toNat total_lp_tokens.toNat / current_xlm.toNat
            else 0
          let usdc_share :=
            if current_usdc > 0 then
              u128SatMul usdc_amount.toNat total_lp_tokens.toNat / current_usdc.toNat
            else 0
          .ok (min (i128ofU128 xlm_share) (i128ofU128 usdc_share))
      if ¬ lp_tokens_minted > 0 then .error "LP tokens minted must be positive"
      else do
        let p ← p.debit .XLM user xlm_amount
        let p ← p.debit (.Custom "USDCSIM") user usdc_amount
        let p := p.add_pool_liquidity xlm_amount usdc_amount
        let new_position :=
          match mget p.lp_positions user with
          | some pos =>
              { pos with
                xlm_deposited := i128SatAdd pos.xlm_deposited xlm_amount
                usdc_deposited := i128SatAdd pos.usdc_deposited usdc_amount
                lp_tokens_minted := i128SatAdd pos.lp_tokens_minted lp_tokens_minted }
          | none =>
              { lp_address := user, xlm_deposited := xlm_amount
                usdc_deposited := usdc_amount, lp_tokens_minted := lp_tokens_minted }
        let p := p.set_lp_position user new_position
        let p := p.add_total_lp_tokens lp_tokens_minted
        let p := p.record_lp_deposit user
        let p := p.check_and_award_badges user
        .ok (p, lp_tokens_minted)

/-- CounterContract::remove_liquidity from lib.rs.  Burns shares for the
proportional floored pool amounts, enforcing the 1-percent rounding
tolerance against the originally deposited amounts. -/
def ccRemoveLiquidity (p : Portfolio) (lp_tokens : Int) (user : Account) :
    Except String (Portfolio × Int × Int) :=
  if ¬ lp_tokens > 0 then .error "LP tokens must be positive"
  else
    match mget p.lp_positions user with
    | none => .error "User has no LP position"
    | some pos =>
      if ¬ pos.lp_tokens_minted ≥ lp_tokens then .error "Insufficient LP tokens"
      else
        let current_xlm := p.get_liquidity .XLM
        let current_usdc := p.get_liquidity (.Custom "USDCSIM")
        let total_lp_tokens := p.total_lp_tokens
        if ¬ total_lp_tokens > 0 then .error "No LP tokens in pool"
        else
          let xlm_amount :=
            i128ofU128 (u128SatMul lp_tokens.toNat current_xlm.toNat / total_lp_tokens.toNat)
          let usdc_amount :=
            i128ofU128 (u128SatMul lp_tokens.toNat current_usdc.toNat / total_lp_tokens.toNat)
          if ¬ (xlm_amount > 0 ∧ usdc_amount > 0) then .error "Amounts must be positive"
          else if xlm_amount > Int.tdiv (i128SatMul pos.xlm_deposited 101) 100 ∨
                  usdc_amount > Int.tdiv (i128SatMul pos.usdc_deposited 101) 100 then
            .error "Cannot remove more than deposited"
          else do
            let p := p.set_liquidity .XLM (i128SatSub current_xlm xlm_amount)
            let p := p.set_liquidity (.Custom "USDCSIM") (i128SatSub current_usdc usdc_amount)
            let p ← p.mint .XLM user xlm_amount
            let p ← p.mint (.Custom "USDCSIM") user usdc_amount
            let pos := { pos with
              lp_tokens_minted := i128SatSub pos.lp_tokens_minted lp_tokens
              xlm_deposited := i128SatSub pos.xlm_deposited xlm_amount
              usdc_deposited := i128SatSub pos.usdc_deposited usdc_amount }
            let p := p.set_lp_position user pos
            let p := p.subtract_total_lp_tokens lp_tokens
            .ok (p, xlm_amount, usdc_amount)

/-- Modelled from the spec: the batch module's operation type is not
under src/; per spec section 4.8 a batch is an ordered sequence of
heterogeneous operations (mint, transfer, ...) against one Portfolio. -/
inductive BatchOperation where
  | mintOp : String → Account → Int → BatchOperation
  | transferOp : String → String → Account → Int → BatchOperation
deriving DecidableEq

/-- BatchResult: aggregate success/failure counts, as used by the lib.rs
wrapper (which writes its operations_failed field directly). -/
structure BatchResult where
  operations_successful : Nat
  operations_failed : Nat
deriving DecidableEq

def BatchResult.new : BatchResult := ⟨0, 0⟩

/-- Application of one batch operation to the live Portfolio, through
the mint / transfer_asset primitives of portfolio.rs. -/
def applyBatchOp (p : Portfolio) : BatchOperation → Except String Portfolio
  | .mintOp tok dst amount => p.mint (assetOfSymbol tok) dst amount
  | .transferOp fromTok toTok user amount =>
      p.transfer_asset (assetOfSymbol fromTok) (assetOfSymbol toTok) user amount

/-- Modelled from the spec: the batch module's atomic executor is not
under src/; per spec section 4.8, atomic mode applies the operations
in order against the live Portfolio and converts the first failure into
a whole-batch failure. -/
def execute_batch_atomic (p : Portfolio) (ops : List BatchOperation) :
    Except String (Portfolio × BatchResult) :=
  match ops with
  | [] => .ok (p, BatchResult.new)
  | op :: rest => do
      let p ← applyBatchOp p op
      let (p, res) ← execute_batch_atomic p rest
      .ok (p, { res with operations_successful := res.operations_successful + 1 })

/-- CounterContract::execute_batch_atomic from lib.rs: the wrapper runs
the executor against the loaded aggregate, persists it only on success,
and on failure returns the pre-batch aggregate untouched together with
a fresh BatchResult whose operations_failed field is set to 1. -/
def ccExecuteBatchAtomic (stored : Portfolio) (ops : List BatchOperation) :
    Portfolio × BatchResult :=
  match execute_batch_atomic stored ops with
  | .ok (p, res) => (p, res)
  | .error _ => (stored, { BatchResult.new with operations_failed := 1 })

/-- One public PnL-touching operation on the Portfolio aggregate, as a
step relation: mint, credit, debit and record_trade, with the panicking
paths excluded (a Soroban panic discards the mutated aggregate, so a
panicking call does not produce a reachable persisted state). -/
inductive PStep : Portfolio → Portfolio → Prop where
  | mint {p p' : Portfolio} (token : Asset) (dst : Account) (amount : Int) :
      p.mint token dst amount = .ok p' → PStep p p'
  | credit {p p' : Portfolio} (token : Asset) (user : Account) (amount : Int) :
      p.credit token user amount = .ok p' → PStep p p'
  | debit {p p' : Portfolio} (token : Asset) (user : Account) (amount : Int) :
      p.debit token user amount = .ok p' → PStep p p'
  | record_trade {p : Portfolio} (user : Account) :
      PStep p (p.record_trade user)

/-- Persisted aggregates reachable from the default-initialized one. -/
inductive PReachable : Portfolio → Prop where
  | start : PReachable Portfolio.new
  | step (p p' : Portfolio) : PReachable p → PStep p p' → PReachable p'

/-- The leaderboard comparison: an earlier entry has PnL at least the
later one's (descending order). -/
def pnlGE (a b : Account × Int) : Prop := b.2 ≤ a.2

instance : DecidableRel pnlGE := fun a b => inferInstanceAs (Decidable (b.2 ≤ a.2))

/-- The leaderboard ordering: stored PnL values descending. -/
def topSortedDesc (l : List (Account × Int)) : Prop :=
  l.Pairwise pnlGE

instance (l : List (Account × Int)) : Decidable (topSortedDesc l) :=
  List.instDecidablePairwise l

/-- Concrete aggregate for exercising CounterContract::swap: one user
holding 100000 XLM against a (1000000, 1000000) pool. -/
def swapFeePortfolio : Portfolio :=
  { Portfolio.new with
    balances := [((0, Asset.XLM), 100000)]
    xlm_in_pool := 1000000
    usdc_in_pool := 1000000 }

/-- Concrete aggregate for exercising repeated swaps: one user holding a
million of each reserve asset against a (1000000, 1000000) pool. -/
def tradesPortfolio : Portfolio :=
  { Portfolio.new with
    balances := [((0, Asset.XLM), 1000000), ((0, Asset.Custom "USDCSIM"), 1000000)]
    xlm_in_pool := 1000000
    usdc_in_pool := 1000000 }

/-- n consecutive CounterContract::swap calls of 100 XLM to USDCSIM by
user 0, at a 30 bps tier fee, stopping at the first failure. -/
def iterSwaps : Nat → Portfolio → Except String Portfolio
  | 0, p => .ok p
  | n + 1, p =>
      match ccSwap (fun _ => 30) true p "XLM" "USDCSIM" 100 0 with
      | .ok (p, _) => iterSwaps n p
      | .error e => .error e

/-- An aggregate holding 5 XLM for user 0 (the state after the first
operation of the concrete batch scenario). -/
def batchMid : Portfolio :=
  (Portfolio.new.mint Asset.XLM 0 5).toOption.getD Portfolio.new

/-- The aggregate with 1000 XLM and 1000 USDCSIM minted to user 0: the
starting point of the first-liquidity scenarios. -/
def lpStart : Except String Portfolio :=
  (Portfolio.new.mint Asset.XLM 0 1000).bind
    (fun p => p.mint (Asset.Custom "USDCSIM") 0 1000)

/-- The aggregate after crediting 7 XLM to user 0 of tradesPortfolio. -/
def creditResP : Portfolio :=
  (tradesPortfolio.credit Asset.XLM 0 7).toOption.getD Portfolio.new

/-- The aggregate after debiting 7 XLM from user 0 of tradesPortfolio. -/
def debitResP : Portfolio :=
  (tradesPortfolio.debit Asset.XLM 0 7).toOption.getD Portfolio.new

/-- The lpStart aggregate itself (both mints succeed). -/
def lpP0 : Portfolio := lpStart.toOption.getD Portfolio.new

/-- State and share count produced by the first-liquidity deposit of
(1000, 1000) into lpP0. -/
def lpAddRes : Portfolio × Int :=
  (ccAddLiquidity true lpP0 1000 1000 0).toOption.getD (Portfolio.new, 0)

/-- State and returned amounts produced by withdrawing all the minted
shares right after the first-liquidity deposit. -/
def lpRemRes : Portfolio × Int × Int :=
  (ccRemoveLiquidity lpAddRes.1 lpAddRes.2 0).toOption.getD (Portfolio.new, 0, 0)

/-- A three-operation run from the empty aggregate: credit 10 XLM to
account 1, debit the same 10 back (a PnL update via the debit path),
then mint 5 XLM to account 2. -/
def c5State : Portfolio :=
  (((Portfolio.new.credit Asset.XLM 1 10).bind
      (fun p => p.debit Asset.XLM 1 10)).bind
    (fun p => p.mint Asset.XLM 2 5)).toOption.getD Portfolio.new

/-- The aggregate reached by a single mint of 5 XLM to account 0. -/
def c5WitState : Portfolio :=
  (Portfolio.new.mint Asset.XLM 0 5).toOption.getD Portfolio.new

theorem mget_mset_self {K V : Type} [DecidableEq K] (m : List (K × V)) (k : K) (v : V) :
    mget (mset m k v) k = some v := by
  induction m with
  | nil => simp [mget, mset]
  | cons kv rest ih =>
      by_cases h : kv.1 = k
      · simp [mget, mset, h]
      · simp [mget, mset, h, ih]

theorem mget_mset_ne {K V : Type} [DecidableEq K] (m : List (K × V)) (k k' : K) (v : V)
    (h : k ≠ k') : mget (mset m k v) k' = mget m k' := by
  induction m with
  | nil => simp [mget, mset, h]
  | cons kv rest ih =>
      by_cases hk : kv.1 = k
      · simp [mget, mset, hk, h]
      · by_cases hk' : kv.1 = k'
        · simp [mget, mset, hk, hk', Ne.symm h]
        · simp [mget, mset, hk, hk', ih]

theorem filterMapRange_take {α : Type} (l : List α) :
    ∀ cap, cap ≤ l.length →
      (List.range cap).filterMap (fun i => l.get? i) = l.take cap := by
  intro cap
  induction cap with
  | zero => simp
  | succ c ih =>
      intro h
      have hc : c < l.length := h
      rw [List.range_succ, List.filterMap_append, ih (Nat.le_of_succ_le h)]
      have hg : l[c]? = some l[c] := List.getElem?_eq_getElem hc
      simp [List.get?_eq_getElem?, List.filterMap_cons, hg,
        List.take_concat_get' l c hc]

/-- C10: Portfolio::get_top_traders never fails and returns the prefix
of the stored leaderboard of length min(limit, 100, stored length); in
particular a limit above 100 is silently clamped to 100. -/
theorem C10_get_top_traders_clamped_prefix (p : Portfolio) (limit : Nat) :
    p.get_top_traders limit =
      p.top_traders.take (min (min limit 100) p.top_traders.length) ∧
    (p.get_top_traders limit).length =
      min (min limit 100) p.top_traders.length ∧
    (limit > 100 → p.get_top_traders limit = p.get_top_traders 100) := by
  have main : ∀ lim : Nat,
      p.get_top_traders lim =
        p.top_traders.take (min (min lim 100) p.top_traders.length) := by
    intro lim
    simp only [Portfolio.get_top_traders]
    split_ifs with h1 h2 h3 <;>
      rw [filterMapRange_take _ _ (by omega)] <;> (congr 1; omega)
  refine ⟨main limit, ?_, ?_⟩
  · rw [main limit]
    simp only [List.length_take]
    omega
  · intro hgt
    rw [main limit, main 100]
    congr 1
    omega

/-- C7: a debit of a positive amount exceeding the current balance
fails with the insufficient-funds panic; no successor state is produced
(the Soroban invocation aborts), so the balance - and every other field
of the aggregate - is left unmutated. -/
theorem C7_debit_insufficient_fails (p : Portfolio) (token : Asset)
    (user : Account) (amount : Int)
    (hpos : 0 < amount) (hlt : p.balance_of token user < amount) :
    p.debit token user amount = .error "Insufficient funds" := by
  have h : ¬ ((mget p.balances (user, token)).getD 0 ≥ amount) := by
    simpa [Portfolio.balance_of] using not_le.mpr hlt
  simp [Portfolio.debit, hpos, h]

theorem C7_debit_insufficient_fails_witness :
    (0 : Int) < 5 ∧ Portfolio.new.balance_of Asset.XLM 0 < 5 ∧
    Portfolio.new.debit Asset.XLM 0 5 = .error "Insufficient funds" :=
  ⟨by decide, by decide,
    C7_debit_insufficient_fails Portfolio.new Asset.XLM 0 5 (by decide) (by decide)⟩

/-- C6: for a non-negative amount and a tier fee rate of at most 100
basis points (the bound the spec's fee policy guarantees for every
tier), the fee floor(amount * fee_bps / 10000) is non-negative, at most
floor(amount * 100 / 10000), and zero when the amount is zero; and on
non-negative amounts Portfolio::invariant_fee_bounds accepts exactly
the (amount, fee) pairs satisfying those bounds. -/
theorem C6_fee_bounds_characterized (amount fee_bps f : Int)
    (h0 : 0 ≤ amount) (h1 : 0 ≤ fee_bps) (h2 : fee_bps ≤ 100) :
    (0 ≤ Int.tdiv (amount * fee_bps) 10000 ∧
     Int.tdiv (amount * fee_bps) 10000 ≤ Int.tdiv (amount * 100) 10000 ∧
     (amount = 0 → Int.tdiv (amount * fee_bps) 10000 = 0)) ∧
    (Portfolio.invariant_fee_bounds amount f = true ↔
      (0 ≤ f ∧ f ≤ Int.tdiv (amount * 100) 10000 ∧ (amount = 0 → f = 0))) := by
  have hm : 0 ≤ amount * fee_bps := mul_nonneg h0 h1
  have hm100 : 0 ≤ amount * 100 := mul_nonneg h0 (by norm_num)
  have e1 : Int.tdiv (amount * fee_bps) 10000 = amount * fee_bps / 10000 :=
    Int.tdiv_eq_ediv hm (by norm_num)
  have e2 : Int.tdiv (amount * 100) 10000 = amount * 100 / 10000 :=
    Int.tdiv_eq_ediv hm100 (by norm_num)
  constructor
  · refine ⟨?_, ?_, ?_⟩
    · rw [e1]; exact Int.ediv_nonneg hm (by norm_num)
    · rw [e1, e2]
      exact Int.ediv_le_ediv (by norm_num) (mul_le_mul_of_nonneg_left h2 h0)
    · intro h; subst h; simp [Int.tdiv]
  · simp only [Portfolio.invariant_fee_bounds, e2]
    split_ifs with hf ha hgt hz <;>
      simp only [Bool.false_eq_true, false_iff, true_iff] <;>
      push_neg at * <;>
      omega

theorem C6_fee_bounds_characterized_witness :
    (0 : Int) ≤ 1000 ∧ (0 : Int) ≤ 30 ∧ (30 : Int) ≤ 100 ∧
    ((0 ≤ Int.tdiv ((1000 : Int) * 30) 10000 ∧
      Int.tdiv ((1000 : Int) * 30) 10000 ≤ Int.tdiv ((1000 : Int) * 100) 10000 ∧
      ((1000 : Int) = 0 → Int.tdiv ((1000 : Int) * 30) 10000 = 0)) ∧
     (Portfolio.invariant_fee_bounds 1000 3 = true ↔
       (0 ≤ (3 : Int) ∧ (3 : Int) ≤ Int.tdiv ((1000 : Int) * 100) 10000 ∧
        ((1000 : Int) = 0 → (3 : Int) = 0)))) :=
  ⟨by decide, by decide, by decide,
    C6_fee_bounds_characterized 1000 30 3 (by decide) (by decide) (by decide)⟩

theorem C10_get_top_traders_clamped_prefix_witness :
    swapFeePortfolio.get_top_traders 7 =
      swapFeePortfolio.top_traders.take
        (min (min 7 100) swapFeePortfolio.top_traders.length) ∧
    (swapFeePortfolio.get_top_traders 7).length =
      min (min 7 100) swapFeePortfolio.top_traders.length ∧
    (7 > 100 → swapFeePortfolio.get_top_traders 7 = swapFeePortfolio.get_top_traders 100) :=
  C10_get_top_traders_clamped_prefix swapFeePortfolio 7

/-- C2 counterexample: crediting 5 XLM to user 0 of the fresh portfolio
succeeds, yet the PnL accumulator stays absent (getD 0 reads it as 0,
exactly as before the credit), where the claim requires it to increase
by the credited amount. -/
theorem C2_credit_leaves_pnl_cex :
    (Portfolio.new.credit Asset.XLM 0 5).map (fun p => mget p.pnl 0) = .ok none ∧
    mget Portfolio.new.pnl 0 = none := by
  constructor
  · rfl
  · rfl

/-- C2 amended: Portfolio::credit never touches the PnL accumulator
(mint is the operation that increments it); a successful
Portfolio::debit rewrites the account's accumulator to the i128
saturating difference, which equals a decrease by exactly the debited
amount whenever the subtraction does not saturate. -/
theorem C2_pnl_credit_unchanged_debit_decreases
    (p q : Portfolio) (ctok dtok : Asset) (u v : Account) (a b : Int)
    (p' q' : Portfolio)
    (hc : p.credit ctok u a = .ok p') (hd : q.debit dtok v b = .ok q') :
    p'.pnl = p.pnl ∧
    mget q'.pnl v = some (i128SatSub ((mget q.pnl v).getD 0) b) ∧
    (I128_MIN ≤ (mget q.pnl v).getD 0 - b ∧ (mget q.pnl v).getD 0 - b ≤ I128_MAX →
      mget q'.pnl v = some ((mget q.pnl v).getD 0 - b)) := by
  have hcred : p'.pnl = p.pnl := by
    unfold Portfolio.credit at hc
    split_ifs at hc with h1 h2
    · cases hc; rfl
    · cases hc; rfl
  have hdeb : mget q'.pnl v = some (i128SatSub ((mget q.pnl v).getD 0) b) := by
    simp only [Portfolio.debit] at hd
    split_ifs at hd with h1 h2
    · cases hd
      exact mget_mset_self _ _ _
  refine ⟨hcred, hdeb, fun hrange => ?_⟩
  rw [hdeb]
  have : i128SatSub ((mget q.pnl v).getD 0) b = (mget q.pnl v).getD 0 - b := by
    simp only [i128SatSub]
    omega
  rw [this]

theorem C2_pnl_credit_unchanged_debit_decreases_witness :
    (tradesPortfolio.credit Asset.XLM 0 7 = .ok creditResP) ∧
    (tradesPortfolio.debit Asset.XLM 0 7 = .ok debitResP) ∧
    (creditResP.pnl = tradesPortfolio.pnl ∧
     mget debitResP.pnl 0 = some (i128SatSub ((mget tradesPortfolio.pnl 0).getD 0) 7) ∧
     (I128_MIN ≤ (mget tradesPortfolio.pnl 0).getD 0 - 7 ∧
        (mget tradesPortfolio.pnl 0).getD 0 - 7 ≤ I128_MAX →
      mget debitResP.pnl 0 = some ((mget tradesPortfolio.pnl 0).getD 0 - 7))) :=
  ⟨by rfl, by rfl,
    C2_pnl_credit_unchanged_debit_decreases tradesPortfolio tradesPortfolio
      Asset.XLM Asset.XLM 0 0 7 7 creditResP debitResP (by rfl) (by rfl)⟩

/-- C9 counterexample: an account that has minted only 1000 of asset A
(XLM) and then calls add_liquidity(1000, 1000) as first depositor does
not receive 1000 LP shares - the call panics on the USDC-side balance
check, because add_liquidity debits both reserve assets. -/
theorem C9_first_deposit_needs_both_balances_cex :
    (Portfolio.new.mint Asset.XLM 0 1000).bind
      (fun p => ccAddLiquidity true p 1000 1000 0) =
    .error "Insufficient USDC balance" := by
  rfl

/-- C9 amended: after minting 1000 of both reserve assets, the
first-depositor add_liquidity(1000, 1000) call mints exactly 1000 LP
shares - the bounded Babylonian integer square root of 1000000 - and
leaves pool reserves (1000, 1000) and total LP supply 1000. -/
theorem C9_first_deposit_sqrt_amended :
    (lpStart.bind (fun p => ccAddLiquidity true p 1000 1000 0)).map
      (fun r => (r.2, r.1.xlm_in_pool, r.1.usdc_in_pool, r.1.total_lp_tokens)) =
      .ok (1000, 1000, 1000, 1000) ∧
    babylonian 1000000 = 1000 := by
  constructor
  · rfl
  · rfl

/-- C1: evaluation of CounterContract::swap at a concrete failing input
(user 0 holding 100000 XLM, reserves (1000000, 1000000), 30 bps tier
fee, amount 10000).  The fee charged is floor(10000 * 30 / 10000) = 30,
exactly as claimed; but the function calls perform_swap twice - first
with the net amount 9970, whose result is immediately shadowed, then
with the full pre-fee amount 10000 - returning the full-amount output
9707 and debiting 30 + 9970 + 10000 = 20000 XLM in total, whereas a
single AMM execution funded by the net amount returns
floor(1000000 * 9970 / (1000000 + 9970)) = 9871. -/
theorem C1_swap_funds_amm_with_full_amount :
    (ccSwap (fun _ => 30) true swapFeePortfolio "XLM" "USDCSIM" 10000 0).map
      (fun r => (r.2, r.1.total_fees_collected, r.1.balance_of Asset.XLM 0,
                 r.1.balance_of (Asset.Custom "USDCSIM") 0)) =
      .ok (9707, 30, 80000, 19578) ∧
    Int.tdiv (10000 * 30) 10000 = 30 ∧
    Int.tdiv (1000000 * (10000 - 30)) (1000000 + (10000 - 30)) = 9871 ∧
    (9707 : Int) ≠ 9871 := by
  exact ⟨by rfl, by rfl, by rfl, by decide⟩

/-- C3: after ten consecutive successful swaps by one account the trade
count is 10 and the FirstTrade badge is present from the first swap
onward, but the Trader badge has never been awarded, because
CounterContract::swap records the trade without ever invoking
check_and_award_badges (whose own documentation says to call it after
each trade); the final conjunct shows that one such call after the
tenth trade would award Trader. -/
theorem C3_ten_trades_trader_badge_never_awarded :
    (iterSwaps 10 tradesPortfolio).map
      (fun p => ((mget p.trades 0).getD 0, p.has_badge 0 .Trader)) =
      .ok (10, false) ∧
    ((List.range 10).all (fun k =>
      match iterSwaps (k + 1) tradesPortfolio with
      | .ok p => p.has_badge 0 .FirstTrade
      | .error _ => false)) = true ∧
    ((iterSwaps 10 tradesPortfolio).map
      (fun p => (p.check_and_award_badges 0).has_badge 0 .Trader)) = .ok true := by
  exact ⟨by rfl, by rfl, by rfl⟩

/-- C4: for an atomic batch of three operations whose second operation
fails (after a successful first), the lib.rs wrapper catches the
executor's error, persists nothing - the stored aggregate is exactly
the pre-batch one - and returns a fresh BatchResult reporting zero
successful operations (with its operations_failed field set to 1). -/
theorem C4_atomic_batch_rollback (stored p1 : Portfolio)
    (op1 op2 op3 : BatchOperation) (e : String)
    (h1 : applyBatchOp stored op1 = .ok p1)
    (h2 : applyBatchOp p1 op2 = .error e) :
    ccExecuteBatchAtomic stored [op1, op2, op3] =
      (stored, { operations_successful := 0, operations_failed := 1 }) := by
  simp [ccExecuteBatchAtomic, execute_batch_atomic, h1, h2, BatchResult.new,
    bind, Except.bind]

theorem C4_atomic_batch_rollback_witness :
    applyBatchOp Portfolio.new (.mintOp "XLM" 0 5) = .ok batchMid ∧
    applyBatchOp batchMid (.transferOp "XLM" "USDCSIM" 0 100) =
      .error "Insufficient funds" ∧
    ccExecuteBatchAtomic Portfolio.new
      [.mintOp "XLM" 0 5, .transferOp "XLM" "USDCSIM" 0 100, .mintOp "XLM" 0 7] =
      (Portfolio.new, { operations_successful := 0, operations_failed := 1 }) :=
  ⟨by rfl, by rfl,
    C4_atomic_batch_rollback Portfolio.new batchMid
      (.mintOp "XLM" 0 5) (.transferOp "XLM" "USDCSIM" 0 100) (.mintOp "XLM" 0 7)
      "Insufficient funds" (by rfl) (by rfl)⟩

theorem i128ofU128_bounds (x : Nat) (h : x ≤ U128_MAX) :
    I128_MIN ≤ i128ofU128 x ∧ i128ofU128 x ≤ I128_MAX := by
  have h127 : (2 : Int) ^ 127 = 170141183460469231731687303715884105728 := by norm_num
  have h128 : (2 : Int) ^ 128 = 340282366920938463463374607431768211456 := by norm_num
  have hn : (x : Int) ≤ ((U128_MAX : Nat) : Int) := by exact_mod_cast h
  have hval : ((U128_MAX : Nat) : Int) = 340282366920938463463374607431768211455 := by
    simp [U128_MAX]
  simp only [i128ofU128, I128_MIN, I128_MAX, h127, h128]
  split_ifs with hx
  · have : (x : Int) < 170141183460469231731687303715884105728 := by exact_mod_cast hx
    omega
  · have : ¬ ((x : Int) < 170141183460469231731687303715884105728) := by
      intro hc
      exact hx (by exact_mod_cast hc)
    omega

theorem babylonianGo_le (product : Nat) :
    ∀ fuel guess prev, guess ≤ U128_MAX → babylonianGo product guess prev fuel ≤ U128_MAX := by
  intro fuel
  induction fuel with
  | zero => intro guess prev hg; simpa [babylonianGo] using hg
  | succ f ih =>
      intro guess prev hg
      simp only [babylonianGo]
      split_ifs with h1 h2
      · exact hg
      · simp [U128_MAX]
      · exact ih _ _ (by
          have : ((guess + product / guess) % 2 ^ 128) / 2 ≤ (2 ^ 128 - 1) := by
            have hm : (guess + product / guess) % 2 ^ 128 < 2 ^ 128 :=
              Nat.mod_lt _ (by norm_num)
            omega
          simpa [U128_MAX] using this)

theorem babylonian_le (product : Nat) (h : product ≤ U128_MAX) :
    babylonian product ≤ U128_MAX :=
  babylonianGo_le product 100 product 0 h

theorem debit_ok_pools (p p' : Portfolio) (t : Asset) (u : Account) (a : Int)
    (h : p.debit t u a = .ok p') :
    p'.xlm_in_pool = p.xlm_in_pool ∧ p'.usdc_in_pool = p.usdc_in_pool ∧
    p'.total_lp_tokens = p.total_lp_tokens ∧ p'.lp_positions = p.lp_positions := by
  simp only [Portfolio.debit] at h
  split_ifs at h
  cases h
  exact ⟨rfl, rfl, rfl, rfl⟩

theorem condAward_xlm (p : Portfolio) (u : Account) (c : Prop) [Decidable c] (b : Badge) :
    (p.condAward u c b).xlm_in_pool = p.xlm_in_pool := by
  simp only [Portfolio.condAward, Portfolio.award_badge]
  split_ifs <;> rfl

theorem condAward_usdc (p : Portfolio) (u : Account) (c : Prop) [Decidable c] (b : Badge) :
    (p.condAward u c b).usdc_in_pool = p.usdc_in_pool := by
  simp only [Portfolio.condAward, Portfolio.award_badge]
  split_ifs <;> rfl

theorem condAward_total_lp (p : Portfolio) (u : Account) (c : Prop) [Decidable c] (b : Badge) :
    (p.condAward u c b).total_lp_tokens = p.total_lp_tokens := by
  simp only [Portfolio.condAward, Portfolio.award_badge]
  split_ifs <;> rfl

theorem checkBadges_xlm (p : Portfolio) (u : Account) :
    (p.check_and_award_badges u).xlm_in_pool = p.xlm_in_pool := by
  simp only [Portfolio.check_and_award_badges, condAward_xlm]

theorem checkBadges_usdc (p : Portfolio) (u : Account) :
    (p.check_and_award_badges u).usdc_in_pool = p.usdc_in_pool := by
  simp only [Portfolio.check_and_award_badges, condAward_usdc]

theorem checkBadges_total_lp (p : Portfolio) (u : Account) :
    (p.check_and_award_badges u).total_lp_tokens = p.total_lp_tokens := by
  simp only [Portfolio.check_and_award_badges, condAward_total_lp]

theorem record_lp_deposit_xlm (p : Portfolio) (u : Account) :
    (p.record_lp_deposit u).xlm_in_pool = p.xlm_in_pool := rfl

theorem record_lp_deposit_usdc (p : Portfolio) (u : Account) :
    (p.record_lp_deposit u).usdc_in_pool = p.usdc_in_pool := rfl

theorem record_lp_deposit_total_lp (p : Portfolio) (u : Account) :
    (p.record_lp_deposit u).total_lp_tokens = p.total_lp_tokens := rfl

theorem add_total_lp_tokens_xlm (p : Portfolio) (a : Int) :
    (p.add_total_lp_tokens a).xlm_in_pool = p.xlm_in_pool := rfl

theorem add_total_lp_tokens_usdc (p : Portfolio) (a : Int) :
    (p.add_total_lp_tokens a).usdc_in_pool = p.usdc_in_pool := rfl

theorem add_total_lp_tokens_total (p : Portfolio) (a : Int) :
    (p.add_total_lp_tokens a).total_lp_tokens = i128SatAdd p.total_lp_tokens a := rfl

theorem set_lp_position_xlm (p : Portfolio) (u : Account) (pos : LPPosition) :
    (p.set_lp_position u pos).xlm_in_pool = p.xlm_in_pool := rfl

theorem set_lp_position_usdc (p : Portfolio) (u : Account) (pos : LPPosition) :
    (p.set_lp_position u pos).usdc_in_pool = p.usdc_in_pool := rfl

theorem set_lp_position_total (p : Portfolio) (u : Account) (pos : LPPosition) :
    (p.set_lp_position u pos).total_lp_tokens = p.total_lp_tokens := rfl

theorem add_pool_liquidity_xlm (p : Portfolio) (a b : Int) :
    (p.add_pool_liquidity a b).xlm_in_pool = i128SatAdd p.xlm_in_pool a := rfl

theorem add_pool_liquidity_usdc (p : Portfolio) (a b : Int) :
    (p.add_pool_liquidity a b).usdc_in_pool = i128SatAdd p.usdc_in_pool b := rfl

theorem add_pool_liquidity_total (p : Portfolio) (a b : Int) :
    (p.add_pool_liquidity a b).total_lp_tokens = p.total_lp_tokens := rfl

/-- The pool-state outcome of a successful first-liquidity deposit:
reserves become exactly the deposited amounts and the total LP supply
becomes exactly the minted share count. -/
theorem addLiquidity_first_deposit_pools (p0 p1 : Portfolio) (a b : Int) (u : Account) (s : Int)
    (hga : 0 < a) (hgb : 0 < b)
    (hxp : p0.xlm_in_pool = 0) (hup : p0.usdc_in_pool = 0)
    (htl : p0.total_lp_tokens = 0)
    (ha : a ≤ I128_MAX) (hb : b ≤ I128_MAX)
    (hadd : ccAddLiquidity true p0 a b u = .ok (p1, s)) :
    p1.xlm_in_pool = a ∧ p1.usdc_in_pool = b ∧ p1.total_lp_tokens = s := by
  simp only [ccAddLiquidity, Portfolio.get_liquidity] at hadd
  rw [if_neg (not_not_intro hga), if_neg (not_not_intro hgb),
    if_neg (by simp : ¬ (true = false))] at hadd
  by_cases hb1 : p0.balance_of Asset.XLM u ≥ a
  case neg =>
    rw [if_pos (by exact fun hc => hb1 (not_not.mp (not_not_intro hc)))] at hadd
    exact Except.noConfusion hadd
  rw [if_neg (not_not_intro hb1)] at hadd
  by_cases hb2 : p0.balance_of (Asset.Custom "USDCSIM") u ≥ b
  case neg =>
    rw [if_pos (by exact fun hc => hb2 (not_not.mp (not_not_intro hc)))] at hadd
    exact Except.noConfusion hadd
  rw [if_neg (not_not_intro hb2)] at hadd
  rw [htl, if_pos rfl] at hadd
  by_cases hprod : u128SatMul a.toNat b.toNat = 0
  · rw [if_pos hprod] at hadd
    simp only [bind, Except.bind] at hadd
    exact Except.noConfusion hadd
  rw [if_neg hprod] at hadd
  simp only [bind, Except.bind] at hadd
  set g := babylonian (u128SatMul a.toNat b.toNat) with hg
  by_cases hlp : ¬ i128ofU128 g > 0
  · rw [if_pos hlp] at hadd
    exact Except.noConfusion hadd
  rw [if_neg hlp] at hadd
  push_neg at hlp
  cases hd1 : p0.debit Asset.XLM u a with
  | error e => rw [hd1] at hadd; dsimp only at hadd; exact Except.noConfusion hadd
  | ok pa =>
    rw [hd1] at hadd
    dsimp only at hadd
    cases hd2 : pa.debit (Asset.Custom "USDCSIM") u b with
    | error e => rw [hd2] at hadd; dsimp only at hadd; exact Except.noConfusion hadd
    | ok pb =>
      rw [hd2] at hadd
      dsimp only at hadd
      injection hadd with hpair
      injection hpair with hp hs
      subst hp
      subst hs
      obtain ⟨e1a, e1b, e1c, _⟩ := debit_ok_pools p0 pa _ u a hd1
      obtain ⟨e2a, e2b, e2c, _⟩ := debit_ok_pools pa pb _ u b hd2
      have hglt : g ≤ U128_MAX := by
        rw [hg]
        exact babylonian_le _ (by simp [u128SatMul])
      obtain ⟨hlo, hhi⟩ := i128ofU128_bounds g hglt
      have hpow : (2 : Int) ^ 127 = 170141183460469231731687303715884105728 := by
        norm_num
      simp only [I128_MIN, I128_MAX, hpow] at ha hb hlo hhi
      refine ⟨?_, ?_, ?_⟩
      · rw [checkBadges_xlm, record_lp_deposit_xlm, add_total_lp_tokens_xlm,
          set_lp_position_xlm, add_pool_liquidity_xlm, e2a, e1a, hxp]
        simp only [i128SatAdd, I128_MIN, I128_MAX, hpow]
        omega
      · rw [checkBadges_usdc, record_lp_deposit_usdc, add_total_lp_tokens_usdc,
          set_lp_position_usdc, add_pool_liquidity_usdc, e2b, e1b, hup]
        simp only [i128SatAdd, I128_MIN, I128_MAX, hpow]
        omega
      · rw [checkBadges_total_lp, record_lp_deposit_total_lp, add_total_lp_tokens_total,
          set_lp_position_total, add_pool_liquidity_total, e2c, e1c, htl]
        simp only [i128SatAdd, I128_MIN, I128_MAX, hpow]
        omega

/-- Amounts returned by a successful remove_liquidity never exceed the
floored proportional share reserve * shares / total, hence (for a
burn of the whole supply) never exceed the reserves themselves. -/
theorem removeLiquidity_amounts_le (p p2 : Portfolio) (s x y : Int) (u : Account)
    (htot : p.total_lp_tokens = s)
    (hx0 : 0 ≤ p.xlm_in_pool) (hx1 : p.xlm_in_pool ≤ I128_MAX)
    (hy0 : 0 ≤ p.usdc_in_pool) (hy1 : p.usdc_in_pool ≤ I128_MAX)
    (hrem : ccRemoveLiquidity p s u = .ok (p2, x, y)) :
    x ≤ p.xlm_in_pool ∧ y ≤ p.usdc_in_pool := by
  have hpow : (2 : Int) ^ 127 = 170141183460469231731687303715884105728 := by
    norm_num
  have main : ∀ r : Int, 0 ≤ r → r ≤ I128_MAX → 0 < s →
      i128ofU128 (u128SatMul s.toNat r.toNat / s.toNat) ≤ r := by
    intro r hr0 hr1 hs
    have hsnat : 0 < s.toNat := by omega
    have hq : u128SatMul s.toNat r.toNat / s.toNat ≤ r.toNat := by
      calc u128SatMul s.toNat r.toNat / s.toNat
          ≤ s.toNat * r.toNat / s.toNat :=
            Nat.div_le_div_right (min_le_left _ _)
        _ = r.toNat := Nat.mul_div_cancel_left _ hsnat
    have hrnat : r.toNat < 2 ^ 127 := by
      have := Int.toNat_of_nonneg hr0
      simp only [I128_MAX, hpow] at hr1
      omega
    have hqlt : u128SatMul s.toNat r.toNat / s.toNat < 2 ^ 127 :=
      lt_of_le_of_lt hq hrnat
    rw [i128ofU128, if_pos hqlt]
    have : ((u128SatMul s.toNat r.toNat / s.toNat : Nat) : Int) ≤ ((r.toNat : Nat) : Int) := by
      exact_mod_cast hq
    rw [Int.toNat_of_nonneg hr0] at this
    exact this
  simp only [ccRemoveLiquidity, Portfolio.get_liquidity, htot, if_true] at hrem
  by_cases hs : s > 0
  case neg =>
    rw [if_pos hs] at hrem
    exact Except.noConfusion hrem
  rw [if_neg (not_not_intro hs)] at hrem
  cases hpos : mget p.lp_positions u with
  | none => rw [hpos] at hrem; exact Except.noConfusion hrem
  | some pos =>
    rw [hpos] at hrem
    dsimp only at hrem
    split at hrem
    · exact Except.noConfusion hrem
    split at hrem
    · exact Except.noConfusion hrem
    split at hrem
    · exact Except.noConfusion hrem
    simp only [bind, Except.bind] at hrem
    split at hrem
    · exact Except.noConfusion hrem
    split at hrem
    · exact Except.noConfusion hrem
    injection hrem with hpair
    injection hpair with hstate hxy
    injection hxy with hxv hyv
    subst hxv
    subst hyv
    exact ⟨main _ hx0 hx1 hs, main _ hy0 hy1 hs⟩

/-- C8: a first-liquidity deposit of (a, b) into an empty pool followed
by a withdrawal of all the minted shares returns amounts bounded by a
and b respectively - the share math only rounds down. -/
theorem C8_lp_round_trip (p0 p1 p2 : Portfolio) (a b s x y : Int) (u : Account)
    (hga : 0 < a) (hgb : 0 < b) (ha : a ≤ I128_MAX) (hb : b ≤ I128_MAX)
    (hxp : p0.xlm_in_pool = 0) (hup : p0.usdc_in_pool = 0)
    (htl : p0.total_lp_tokens = 0)
    (hadd : ccAddLiquidity true p0 a b u = .ok (p1, s))
    (hrem : ccRemoveLiquidity p1 s u = .ok (p2, x, y)) :
    x ≤ a ∧ y ≤ b := by
  obtain ⟨hx, hy, ht⟩ :=
    addLiquidity_first_deposit_pools p0 p1 a b u s hga hgb hxp hup htl ha hb hadd
  have := removeLiquidity_amounts_le p1 p2 s x y u ht
    (by rw [hx]; omega) (by rw [hx]; exact ha)
    (by rw [hy]; omega) (by rw [hy]; exact hb) hrem
  rwa [hx, hy] at this

theorem C8_lp_round_trip_witness :
    ((0 : Int) < 1000 ∧ (1000 : Int) ≤ I128_MAX ∧
     lpP0.xlm_in_pool = 0 ∧ lpP0.usdc_in_pool = 0 ∧ lpP0.total_lp_tokens = 0 ∧
     ccAddLiquidity true lpP0 1000 1000 0 = .ok (lpAddRes.1, lpAddRes.2) ∧
     ccRemoveLiquidity lpAddRes.1 lpAddRes.2 0 =
       .ok (lpRemRes.1, lpRemRes.2.1, lpRemRes.2.2)) ∧
    (lpRemRes.2.1 ≤ 1000 ∧ lpRemRes.2.2 ≤ 1000) :=
  ⟨⟨by decide, by decide, by rfl, by rfl, by rfl, by rfl, by rfl⟩,
    C8_lp_round_trip lpP0 lpAddRes.1 lpRemRes.1 1000 1000 lpAddRes.2
      lpRemRes.2.1 lpRemRes.2.2 0
      (by decide) (by decide) (by decide) (by decide)
      (by rfl) (by rfl) (by rfl) (by rfl) (by rfl)⟩

theorem passB_length (m : Nat) (l : List (Account × Int)) :
    (passB m l).length = l.length := by
  induction m generalizing l with
  | zero => cases l <;> rfl
  | succ m ih =>
      match l with
      | [] => rfl
      | [x] => rfl
      | x :: y :: rest =>
          simp only [passB]
          split_ifs <;> simp [List.length_cons, ih]

theorem passB_take_perm (m : Nat) (l : List (Account × Int)) :
    List.Perm ((passB m l).take (m + 1)) (l.take (m + 1)) := by
  induction m generalizing l with
  | zero => cases l <;> exact List.Perm.refl _
  | succ m ih =>
      match l with
      | [] => exact List.Perm.refl _
      | [x] => exact List.Perm.refl _
      | x :: y :: rest =>
          simp only [passB]
          split_ifs with h
          · exact ((ih (x :: rest)).cons y).trans (List.Perm.swap x y _)
          · exact (ih (y :: rest)).cons x

theorem passB_drop (m : Nat) (l : List (Account × Int)) :
    (passB m l).drop (m + 1) = l.drop (m + 1) := by
  induction m generalizing l with
  | zero => cases l <;> rfl
  | succ m ih =>
      match l with
      | [] => rfl
      | [x] => rfl
      | x :: y :: rest =>
          simp only [passB]
          split_ifs with h
          · rw [List.drop_succ_cons, ih (x :: rest), List.drop_succ_cons,
              List.drop_succ_cons, List.drop_succ_cons]
          · rw [List.drop_succ_cons, ih (y :: rest), List.drop_succ_cons,
              List.drop_succ_cons, List.drop_succ_cons]

theorem passB_min_at (m : Nat) (l : List (Account × Int)) (hlen : m + 1 ≤ l.length) :
    ∃ e t, (passB m l).drop m = e :: t ∧
      ∀ z ∈ (passB m l).take (m + 1), e.2 ≤ z.2 := by
  induction m generalizing l with
  | zero =>
      match l, hlen with
      | x :: t, _ =>
          refine ⟨x, t, rfl, ?_⟩
          intro z hz
          have hx1 : List.take (0 + 1) (passB 0 (x :: t)) = [x] := rfl
          rw [hx1, List.mem_singleton] at hz
          subst hz
          exact le_refl _
  | succ m ih =>
      match l, hlen with
      | x :: y :: rest, hl =>
          have hlenx : m + 1 ≤ (x :: rest).length := by
            simp only [List.length_cons] at hl ⊢
            omega
          have hleny : m + 1 ≤ (y :: rest).length := by
            simp only [List.length_cons] at hl ⊢
            omega
          simp only [passB]
          split_ifs with hxy
          · obtain ⟨e, t, hdrop, hbound⟩ := ih (x :: rest) hlenx
            refine ⟨e, t, ?_, ?_⟩
            · rw [List.drop_succ_cons, hdrop]
            · intro z hz
              rw [List.take_succ_cons] at hz
              rcases List.mem_cons.mp hz with rfl | hz'
              · have hxmem : x ∈ (passB m (x :: rest)).take (m + 1) :=
                  (passB_take_perm m (x :: rest)).mem_iff.mpr
                    (by rw [List.take_succ_cons]; exact List.mem_cons_self x _)
                have hex := hbound x hxmem
                have : x.2 < z.2 := hxy
                omega
              · exact hbound z hz'
          · obtain ⟨e, t, hdrop, hbound⟩ := ih (y :: rest) hleny
            refine ⟨e, t, ?_, ?_⟩
            · rw [List.drop_succ_cons, hdrop]
            · intro z hz
              rw [List.take_succ_cons] at hz
              rcases List.mem_cons.mp hz with rfl | hz'
              · have hymem : y ∈ (passB m (y :: rest)).take (m + 1) :=
                  (passB_take_perm m (y :: rest)).mem_iff.mpr
                    (by rw [List.take_succ_cons]; exact List.mem_cons_self y _)
                have hey := hbound y hymem
                have : y.2 ≤ z.2 := not_lt.mp hxy
                omega
              · exact hbound z hz'

theorem inv_step (k : Nat) (l : List (Account × Int))
    (h1 : List.Pairwise pnlGE (l.drop (k + 1)))
    (h2 : ∀ a ∈ l.take (k + 1), ∀ b ∈ l.drop (k + 1), b.2 ≤ a.2) :
    List.Pairwise pnlGE ((passB k l).drop k) ∧
    ∀ a ∈ (passB k l).take k, ∀ b ∈ (passB k l).drop k, b.2 ≤ a.2 := by
  by_cases hlen : k + 1 ≤ l.length
  case neg =>
    have hnil : (passB k l).drop k = [] := by
      rw [List.drop_eq_nil_iff]
      rw [passB_length]
      omega
    rw [hnil]
    exact ⟨List.Pairwise.nil, fun a _ b hb => absurd hb (List.not_mem_nil b)⟩
  case pos =>
    obtain ⟨e, t, hdrop, hbound⟩ := passB_min_at k l hlen
    have hdropsucc : (passB k l).drop (k + 1) = l.drop (k + 1) := passB_drop k l
    have ht : t = l.drop (k + 1) := by
      have h1' : (passB k l).drop (k + 1) = t := by
        have hdd := List.drop_drop 1 k (passB k l)
        rw [hdrop] at hdd
        simpa [List.drop_succ_cons] using hdd.symm
      rw [← h1', hdropsucc]
    have htake1 : (passB k l).take (k + 1) = (passB k l).take k ++ [e] := by
      have := List.take_add (passB k l) k 1
      rw [hdrop] at this
      simpa using this
    have hemem : e ∈ l.take (k + 1) :=
      (passB_take_perm k l).mem_iff.mp
        (by rw [htake1]; exact List.mem_append_right _ (List.mem_singleton.mpr rfl))
    have hsubtake : ∀ a ∈ (passB k l).take k, a ∈ (passB k l).take (k + 1) := by
      intro a ha
      rw [htake1]
      exact List.mem_append_left _ ha
    have hmemtake : ∀ a ∈ (passB k l).take (k + 1), a ∈ l.take (k + 1) := by
      intro a ha
      exact (passB_take_perm k l).mem_iff.mp ha
    constructor
    · rw [hdrop, ht]
      refine List.Pairwise.cons ?_ h1
      intro b hb
      exact h2 e hemem b hb
    · intro a ha b hb
      rw [hdrop] at hb
      rcases List.mem_cons.mp hb with rfl | hb'
      · exact hbound a (hsubtake a ha)
      · rw [ht] at hb'
        exact h2 a (hmemtake a (hsubtake a ha)) b hb'

theorem outerGo_sorted (k : Nat) :
    ∀ l : List (Account × Int),
      List.Pairwise pnlGE (l.drop k) →
      (∀ a ∈ l.take k, ∀ b ∈ l.drop k, b.2 ≤ a.2) →
      List.Pairwise pnlGE (outerGo k l) := by
  induction k with
  | zero =>
      intro l h1 _
      simpa [outerGo] using h1
  | succ k ih =>
      intro l h1 h2
      simp only [outerGo]
      obtain ⟨g1, g2⟩ := inv_step k l h1 h2
      exact ih _ g1 g2

theorem sortTopTraders_sorted (l : List (Account × Int)) :
    List.Pairwise pnlGE (sortTopTraders l) := by
  refine outerGo_sorted l.length l ?_ ?_
  · rw [List.drop_length]
    exact List.Pairwise.nil
  · intro a _ b hb
    rw [List.drop_length] at hb
    exact absurd hb (List.not_mem_nil b)

theorem outerGo_length (k : Nat) :
    ∀ l : List (Account × Int), (outerGo k l).length = l.length := by
  induction k with
  | zero => intro l; rfl
  | succ k ih =>
      intro l
      simp only [outerGo]
      rw [ih, passB_length]

theorem sortTopTraders_length (l : List (Account × Int)) :
    (sortTopTraders l).length = l.length :=
  outerGo_length l.length l

theorem update_top_traders_inv (q : Portfolio) (u : Account)
    (hlen : q.top_traders.length ≤ 100) :
    topSortedDesc (q.update_top_traders u).top_traders ∧
    (q.update_top_traders u).top_traders.length ≤ 100 := by
  constructor
  · exact sortTopTraders_sorted _
  · show (sortTopTraders _).length ≤ 100
    rw [sortTopTraders_length]
    cases hidx : q.top_traders.findIdx? (fun t => t.1 = u) with
    | some idx =>
        simp only [hidx, List.length_set]
        exact hlen
    | none =>
        simp only [hidx]
        split_ifs with hl
        · simp only [List.length_append, List.length_singleton]
          omega
        · cases hg : q.top_traders.get? 99 with
          | some entry =>
              simp only [hg]
              split_ifs <;> simp [List.length_set, hlen]
          | none => simp [hg, hlen]

theorem credit_ok_top (p p' : Portfolio) (t : Asset) (u : Account) (a : Int)
    (h : p.credit t u a = .ok p') : p'.top_traders = p.top_traders := by
  simp only [Portfolio.credit] at h
  split_ifs at h <;> cases h <;> rfl

theorem debit_ok_top (p p' : Portfolio) (t : Asset) (u : Account) (a : Int)
    (h : p.debit t u a = .ok p') : p'.top_traders = p.top_traders := by
  simp only [Portfolio.debit] at h
  split_ifs at h
  cases h
  rfl

theorem record_trade_top (p : Portfolio) (u : Account) :
    (p.record_trade u).top_traders = p.top_traders := by
  simp only [Portfolio.record_trade, Portfolio.award_badge]
  split_ifs <;> rfl

/-- C5 amended: along every sequence of PnL-touching operations (mint,
credit, debit, record_trade) from the empty aggregate, the leaderboard
stays sorted by its stored PnL values in descending order and never
exceeds 100 entries. -/
theorem C5_leaderboard_sorted_bounded (p : Portfolio) (h : PReachable p) :
    topSortedDesc p.top_traders ∧ p.top_traders.length ≤ 100 := by
  induction h with
  | start =>
      exact ⟨List.Pairwise.nil, by simp [Portfolio.new]⟩
  | step q q' hr hs ih =>
      cases hs with
      | mint token dst amount hm =>
          simp only [Portfolio.mint] at hm
          split_ifs at hm
          injection hm with hq'
          subst hq'
          have hlen1 : ({ q with
              balances := mset q.balances (dst, token)
                ((mget q.balances (dst, token)).getD 0 + amount)
              pnl := mset q.pnl dst ((mget q.pnl dst).getD 0 + amount) } :
                Portfolio).top_traders.length ≤ 100 := ih.2
          obtain ⟨hs1, hs2⟩ := update_top_traders_inv _ dst hlen1
          exact ⟨hs1, hs2⟩
      | credit token u amount hc =>
          rw [credit_ok_top q q' token u amount hc]
          exact ih
      | debit token u amount hd =>
          rw [debit_ok_top q q' token u amount hd]
          exact ih
      | record_trade u =>
          rw [record_trade_top q u]
          exact ih

theorem C5_leaderboard_sorted_bounded_witness :
    topSortedDesc c5WitState.top_traders ∧ c5WitState.top_traders.length ≤ 100 :=
  C5_leaderboard_sorted_bounded c5WitState
    (PReachable.step Portfolio.new c5WitState PReachable.start
      (PStep.mint Asset.XLM 0 5 (by rfl)))

/-- C5 counterexample: after the modelled run credit(1, 10);
debit(1, 10); mint(2, 5) from the empty aggregate, account 1 has a PnL
entry (-10) - it is an observed account, and with only two accounts
observed the true top-K (K = 2) contains it - yet the leaderboard holds
only [(2, 5)], despite having room to spare: debit updates PnL without
ever touching the leaderboard, and credit-funded accounts are never
inserted.  The claim's top-K containment is therefore false. -/
theorem C5_leaderboard_not_topK_cex :
    c5State.top_traders = [(2, 5)] ∧
    mget c5State.pnl 1 = some (-10) ∧
    c5State.top_traders.length < 100 ∧
    ¬ ((1 : Account) ∈ c5State.top_traders.map Prod.fst) := by
  refine ⟨by rfl, by rfl, by decide, by decide⟩

end SwapTrade
